import Mathlib

/-!
Verification of the node-kapacitor client library: a shallow embedding of
the JavaScript value model used by the configuration / request layer
(`src/lib/kapacitor.ts`, `src/lib/results.ts`, `src/lib/grammar/escape.ts`)
together with a model of the connection-pool behaviour described by the
specification (the pool implementation itself, `src/lib/pool.ts`, is not
part of the sources; where a claim depends on it the definition is marked
`Modelled from the spec:`).
-/

namespace Kap

/-- A JavaScript runtime value, as far as the library observes it:
`undefined`, `null`, booleans, numbers (kept as their source lexeme — no
property proved here depends on numeric value), strings, objects as
insertion-ordered key/value lists, and arrays. -/
inductive JsVal where
  | undef : JsVal
  | null : JsVal
  | boolean : Bool → JsVal
  | number : String → JsVal
  | str : String → JsVal
  | obj : List (String × JsVal) → JsVal
  | arr : List JsVal → JsVal

/-- A JavaScript object: an insertion-ordered association list of
own properties (a property may be present with value `undefined`). -/
abbrev JsObj := List (String × JsVal)

/-- Property read `o[k]`: an absent key resolves to `undefined`. -/
def jsGet (o : JsObj) (k : String) : JsVal :=
  match o with
  | [] => .undef
  | (k2, v) :: rest => if k2 = k then v else jsGet rest k

/-- Property write `o[k] = v`: updates an existing key in place,
otherwise appends the key (JS property-creation order). -/
def jsSet (o : JsObj) (k : String) (v : JsVal) : JsObj :=
  match o with
  | [] => [(k, v)]
  | (k2, v2) :: rest => if k2 = k then (k, v) :: rest else (k2, v2) :: jsSet rest k v

/-- Models `delete o[k]`: removes the own property. -/
def jsDelete (o : JsObj) (k : String) : JsObj :=
  match o with
  | [] => []
  | (k2, v2) :: rest => if k2 = k then jsDelete rest k else (k2, v2) :: jsDelete rest k

/-- Models `Object.keys(o)`: own property names in insertion order (keys whose
value is `undefined` are still own properties and are listed). -/
def objKeys (o : JsObj) : List String := o.map Prod.fst

/-- Models `o.hasOwnProperty(k)`. -/
def hasOwn (o : JsObj) (k : String) : Bool := (objKeys o).contains k

/-- Models `v === undefined`. -/
def JsVal.isUndef : JsVal → Bool
  | .undef => true
  | _ => false

/-- Whether a JSON number lexeme denotes zero: no nonzero digit occurs in
its mantissa (anything before an exponent marker). Only used to define
truthiness; no proved property depends on it. -/
def numLitIsZero (lit : String) : Bool :=
  ((lit.toList.takeWhile (fun c => c ≠ 'e' ∧ c ≠ 'E')).all
    (fun c => ¬ ('1' ≤ c ∧ c ≤ '9')))

/-- JavaScript truthiness, as used by `if (task.script)` and
`if (error)`: `undefined`, `null`, `false`, zero and the empty string are
falsy; every object and array is truthy. -/
def JsVal.truthy : JsVal → Bool
  | .undef => false
  | .null => false
  | .boolean b => b
  | .number lit => ¬ numLitIsZero lit
  | .str s => s ≠ ""
  | .obj _ => true
  | .arr _ => true

/-! ### A model of `JSON.parse`
The request layer hands response bodies and request bodies to the Node
runtime's `JSON.parse` / `JSON.stringify`. `jsonParse` below implements the
JSON grammar (numbers are kept as validated lexemes: no proved property
depends on numeric value). -/

/-- Skip JSON insignificant whitespace. -/
def skipWs : List Char → List Char
  | [] => []
  | c :: cs => if c = ' ' ∨ c = '\t' ∨ c = '\n' ∨ c = '\r' then skipWs cs else c :: cs

/-- Value of a hex digit. -/
def hexVal (c : Char) : Option Nat :=
  if '0' ≤ c ∧ c ≤ '9' then some (c.toNat - '0'.toNat)
  else if 'a' ≤ c ∧ c ≤ 'f' then some (c.toNat - 'a'.toNat + 10)
  else if 'A' ≤ c ∧ c ≤ 'F' then some (c.toNat - 'A'.toNat + 10)
  else none

/-- Single-character JSON string escapes. -/
def escChar (c : Char) : Option Char :=
  if c = '"' ∨ c = '\\' ∨ c = '/' then some c
  else if c = 'b' then some (Char.ofNat 8)
  else if c = 'f' then some (Char.ofNat 12)
  else if c = 'n' then some '\n'
  else if c = 'r' then some '\r'
  else if c = 't' then some '\t'
  else none

/-- Lex the body of a JSON string, after the opening quote; returns the
decoded characters and the remaining input past the closing quote. -/
def lexStringBody : List Char → Option (List Char × List Char)
  | [] => none
  | '"' :: rest => some ([], rest)
  | '\\' :: 'u' :: a :: b :: c :: d :: rest => do
      let ha ← hexVal a
      let hb ← hexVal b
      let hc ← hexVal c
      let hd ← hexVal d
      let (s, r) ← lexStringBody rest
      pure (Char.ofNat (((ha * 16 + hb) * 16 + hc) * 16 + hd) :: s, r)
  | '\\' :: e :: rest => do
      let c ← escChar e
      let (s, r) ← lexStringBody rest
      pure (c :: s, r)
  | c :: rest =>
      if c.toNat < 32 then none
      else do
        let (s, r) ← lexStringBody rest
        pure (c :: s, r)

/-- Lex a JSON number (`-? int frac? exp?`), returning its lexeme. -/
def lexNumber (cs : List Char) : Option (String × List Char) :=
  let (sign, cs1) : List Char × List Char :=
    match cs with
    | '-' :: t => (['-'], t)
    | _ => ([], cs)
  match cs1 with
  | [] => none
  | c :: t =>
    if ¬ c.isDigit then none else
    let (intPart, afterInt) : List Char × List Char :=
      if c = '0' then ([c], t)
      else let (ds, t2) := t.span Char.isDigit; (c :: ds, t2)
    let fracRes : Option (List Char × List Char) :=
      match afterInt with
      | '.' :: t2 =>
        let (ds, t3) := t2.span Char.isDigit
        if ds = [] then none else some (('.' :: ds), t3)
      | _ => some ([], afterInt)
    match fracRes with
    | none => none
    | some (fracPart, afterFrac) =>
      let expRes : Option (List Char × List Char) :=
        match afterFrac with
        | e :: t2 =>
          if e = 'e' ∨ e = 'E' then
            let (sgn, t3) : List Char × List Char :=
              match t2 with
              | s :: t4 => if s = '+' ∨ s = '-' then ([s], t4) else ([], t2)
              | [] => ([], t2)
            let (ds, t5) := t3.span Char.isDigit
            if ds = [] then none else some (e :: (sgn ++ ds), t5)
          else some ([], afterFrac)
        | [] => some ([], afterFrac)
      match expRes with
      | none => none
      | some (expPart, afterExp) =>
        some (String.mk (sign ++ intPart ++ fracPart ++ expPart), afterExp)

mutual

/-- Parse one JSON value (fuel-bounded recursive descent). -/
def parseVal : Nat → List Char → Option (JsVal × List Char)
  | 0, _ => none
  | fuel + 1, cs =>
    match skipWs cs with
    | [] => none
    | c :: rest =>
      if c = Char.ofNat 123 then parseObjBody fuel rest
      else if c = '[' then parseArrBody fuel rest
      else if c = '"' then
        (lexStringBody rest).map (fun p => (.str (String.mk p.1), p.2))
      else
        match c :: rest with
        | 'n' :: 'u' :: 'l' :: 'l' :: r => some (.null, r)
        | 't' :: 'r' :: 'u' :: 'e' :: r => some (.boolean true, r)
        | 'f' :: 'a' :: 'l' :: 's' :: 'e' :: r => some (.boolean false, r)
        | cs2 => (lexNumber cs2).map (fun p => (.number p.1, p.2))

/-- Parse an object body, after the opening brace. -/
def parseObjBody : Nat → List Char → Option (JsVal × List Char)
  | 0, _ => none
  | fuel + 1, cs =>
    match skipWs cs with
    | [] => none
    | c :: rest =>
      if c = Char.ofNat 125 then some (.obj [], rest)
      else parseMembers fuel (c :: rest) []

/-- Parse object members; a duplicate key overwrites the earlier value in
place, as `JSON.parse` does. -/
def parseMembers : Nat → List Char → JsObj → Option (JsVal × List Char)
  | 0, _, _ => none
  | fuel + 1, cs, acc =>
    match skipWs cs with
    | '"' :: rest =>
      match lexStringBody rest with
      | some (k, r1) =>
        match skipWs r1 with
        | ':' :: r2 =>
          match parseVal fuel r2 with
          | some (v, r3) =>
            let acc2 := jsSet acc (String.mk k) v
            match skipWs r3 with
            | ',' :: r4 => parseMembers fuel r4 acc2
            | cbr :: r4 => if cbr = Char.ofNat 125 then some (.obj acc2, r4) else none
            | [] => none
          | none => none
        | _ => none
      | none => none
    | _ => none

/-- Parse an array body, after the opening bracket. -/
def parseArrBody : Nat → List Char → Option (JsVal × List Char)
  | 0, _ => none
  | fuel + 1, cs =>
    match skipWs cs with
    | ']' :: rest => some (.arr [], rest)
    | _ => parseElems fuel cs []

/-- Parse array elements. -/
def parseElems : Nat → List Char → List JsVal → Option (JsVal × List Char)
  | 0, _, _ => none
  | fuel + 1, cs, acc =>
    match parseVal fuel cs with
    | some (v, r) =>
      match skipWs r with
      | ',' :: r2 => parseElems fuel r2 (acc ++ [v])
      | ']' :: r2 => some (.arr (acc ++ [v]), r2)
      | _ => none
    | none => none

end

/-- Models `JSON.parse(s)`: `none` models a thrown `SyntaxError`. -/
def jsonParse (s : String) : Option JsVal :=
  match parseVal (4 * s.length + 16) s.toList with
  | some (v, rest) => if skipWs rest = [] then some v else none
  | none => none

/-- Property access `v.k` on an arbitrary value: on `undefined` and `null`
it throws a `TypeError` (modelled as `none`); on an object it resolves the
own property (absent keys give `undefined`); on primitives and arrays it
yields `undefined` (no own `error`-like property exists on them). -/
def jsPropAccess (v : JsVal) (k : String) : Option JsVal :=
  match v with
  | .undef => none
  | .null => none
  | .obj fs => some (jsGet fs k)
  | _ => some .undef

mutual

/-- JavaScript string coercion `String(v)` / template interpolation, as in
`'tasks/' + taskId` (numbers are approximated by their stored lexeme; no
proved property depends on a numeric case). -/
def jsTemplateStr : JsVal → String
  | .undef => "undefined"
  | .null => "null"
  | .boolean b => if b then "true" else "false"
  | .number lit => lit
  | .str s => s
  | .obj _ => "[object Object]"
  | .arr xs => jsArrJoin xs

/-- Models `Array.prototype.toString`: comma-joined elements. -/
def jsArrJoin : List JsVal → String
  | [] => ""
  | [v] => jsElemStr v
  | v :: rest => jsElemStr v ++ "," ++ jsArrJoin rest

/-- An element inside an array stringifies like the value itself, except
`undefined` and `null` become the empty string. -/
def jsElemStr : JsVal → String
  | .undef => ""
  | .null => ""
  | v => jsTemplateStr v

end

/-! ### `src/lib/grammar/escape.ts` -/

/-- Embeds `escape.quoted` (src/src/lib/grammar/escape.ts, lines 10-15):
`val.replace(/"/g, '\x27')` — every double quote becomes an apostrophe
(`Char.ofNat 39`). -/
def escapeQuoted (val : String) : String :=
  String.mk (val.data.map (fun c => if c = '"' then Char.ofNat 39 else c))

/-! ### `src/lib/results.ts` (src/unnamed/part_001) -/

/-- Embeds `ResultError` (src/unnamed/part_001, lines 6-11): thrown when a query
generates errorful results from Kapacitor. -/
structure ResultError where
  message : String

/-- The constructor `new ResultError(m)` sets `this.message` to
`` `Error from Kapacitor: ${m}` ``. -/
def ResultError.make (m : String) : ResultError :=
  ⟨"Error from Kapacitor: " ++ m⟩

/-- Embeds `assertNoErrors` (src/unnamed/part_001, lines 65-72): destructures the
`error` field of the response document; if it is truthy the call throws
`new ResultError(error)`, otherwise the document is returned unchanged. -/
def assertNoErrors (res : JsObj) : Except ResultError JsObj :=
  let error := jsGet res "error"
  if error.truthy then .error (ResultError.make (jsTemplateStr error))
  else .ok res

/-- Embeds `RequestError` (src/unnamed/part_001, lines 25-51): returned from
requests answered with a 3xx-4xx status. `message` is a JS value because
the constructor can leave it `undefined` (see `RequestError.make`). -/
structure RequestError where
  statusCode : Nat
  statusMessage : String
  message : JsVal

/-- The `RequestError` constructor (src/unnamed/part_001, lines 43-51):
`this.message = body; try { this.message = JSON.parse(body).error }
catch (e) {}` — on a JSON parse error, or when the parsed value is
`null` (property access throws), the raw body is kept; otherwise the
`error` property of the parsed value is stored, which is `undefined`
when absent. -/
def RequestError.make (statusCode : Nat) (statusMessage : String) (body : String) :
    RequestError :=
  let msg : JsVal := .str body
  let msg : JsVal :=
    match jsonParse body with
    | none => msg
    | some v =>
      match jsPropAccess v "error" with
      | none => msg
      | some u => u
  ⟨statusCode, statusMessage, msg⟩

/-! ### `src/lib/kapacitor.ts` (src/src/lib/kapacitor.test.ts): the
configuration-merging helper and the constructor's host resolution -/

/-- Embeds the `defaults(target, src)` inner pass (src/src/lib/kapacitor.test.ts,
lines 131-141): for each own key of `src`, assign `src[key]` to the target
only when `target[key]` resolves to `undefined`. -/
def assignDefaults (target src : JsObj) : JsObj :=
  (objKeys src).foldl
    (fun t k => if (jsGet t k).isUndef then jsSet t k (jsGet src k) else t)
    target

/-- Embeds `defaults(target, ...srcs)`: applies the sources left to right. -/
def defaults (target : JsObj) (srcs : List JsObj) : JsObj :=
  srcs.foldl assignDefaults target

/-- Embeds `defaultHost` (src/src/lib/kapacitor.test.ts, lines 39-43). -/
def defaultHost : JsObj :=
  [("host", .str "127.0.0.1"), ("port", .number "9092"), ("protocol", .str "http")]

/-- The constructor's input after the string form has been handled:
`new Kapacitor()` (absent) or an options object. The URL string form is
converted by `parseOptionsUrl` (Node's `url.parse`, external to the
repository) into a single-host object covered by the `config` case. -/
inductive ConfigInput where
  | absent : ConfigInput
  | config : JsObj → ConfigInput

/-- Resolution of one entry of `resolved.hosts` by the constructor
(src/src/lib/kapacitor.test.ts, lines 239-246): build
`{host, port, protocol, options}` from the entry and fill undefined keys
from `defaultHost`; reading a property of a `null`/`undefined` entry
throws (`none`). -/
def resolveHostEntry (h : JsVal) : Option JsObj := do
  let hv ← jsPropAccess h "host"
  let pv ← jsPropAccess h "port"
  let prv ← jsPropAccess h "protocol"
  let ov ← jsPropAccess h "options"
  pure (defaults
    [("host", hv), ("port", pv), ("protocol", prv), ("options", ov)]
    [defaultHost])

/-- Models `resolved.hosts.map(host => defaults({...}, defaultHost))`: resolves
every entry, aborting if any entry throws. -/
def resolveHostList : List JsVal → Option (List JsObj)
  | [] => some []
  | h :: rest => do
    let r ← resolveHostEntry h
    let rs ← resolveHostList rest
    pure (r :: rs)

/-- Host resolution performed by the `Kapacitor` constructor
(src/src/lib/kapacitor.test.ts, lines 224-254): an options object without
an own `hosts` property is wrapped as `{hosts: [options], pool:
options.pool}`; then every entry of `hosts` is resolved against
`defaultHost`. `none` models the `TypeError` thrown when `hosts` is not an
array (`resolved.hosts.map`) or an entry is `null`/`undefined`. -/
def resolveClusterHosts (options : ConfigInput) : Option (List JsObj) :=
  let o : JsObj :=
    match options with
    | .absent => defaultHost
    | .config o => o
  let o : JsObj :=
    if ¬ hasOwn o "hosts" then
      [("hosts", .arr [.obj o]), ("pool", jsGet o "pool")]
    else o
  match jsGet o "hosts" with
  | .arr hs => resolveHostList hs
  | _ => none

/-- The URL the constructor registers for a resolved host:
`` `${host.protocol}://${host.host}:${host.port}` ``. -/
def hostUrl (h : JsObj) : String :=
  jsTemplateStr (jsGet h "protocol") ++ "://" ++ jsTemplateStr (jsGet h "host")
    ++ ":" ++ jsTemplateStr (jsGet h "port")

/-- Modelled from the spec: `ConfigurationError` (§7) — malformed pool
construction or a duplicate host; fatal at construction time. -/
inductive ConfigurationError where
  | malformedOptions : ConfigurationError
  | duplicateHost : String → ConfigurationError
  deriving DecidableEq

/-- Modelled from the spec: `PoolOptions` (§3) as the Pool's constructor
receives them — every recognized option either absent or specified (signed,
so that malformed non-positive values are representable). -/
structure PoolOptions where
  maxRetries : Option Int
  requestTimeout : Option Int
  backoffInitial : Option Int
  backoffMax : Option Int
  randomizeSelection : Option Bool

/-- Modelled from the spec: the validation `construct(options)` performs
(§6: "fails with `ConfigurationError` if `options` is malformed (e.g.,
non-positive timeouts)"; §3: `maxRetries: integer ≥ 0`, durations) —
`src/lib/pool.ts` is not among the sources. A specified negative
`maxRetries` or a specified non-positive duration is malformed. -/
def validatePoolOptions (o : PoolOptions) : Except ConfigurationError Unit :=
  if o.maxRetries.getD 0 < 0 then .error .malformedOptions
  else if o.requestTimeout.getD 1 ≤ 0 then .error .malformedOptions
  else if o.backoffInitial.getD 1 ≤ 0 then .error .malformedOptions
  else if o.backoffMax.getD 1 ≤ 0 then .error .malformedOptions
  else .ok ()

/-- Modelled from the spec: `addHost(baseURL, requestOptions)` (§4.1, §6)
— appends a new eligible entry to the Host Registry, failing with
`ConfigurationError` if the base URL is already present;
`src/lib/pool.ts` is not among the sources. -/
def addHost (registry : List String) (baseURL : String) :
    Except ConfigurationError (List String) :=
  if baseURL ∈ registry then .error (.duplicateHost baseURL)
  else .ok (registry ++ [baseURL])

/-- The constructor's `resolved.hosts.forEach(host => pool.addHost(...))`
loop: adds each URL in registration order, stopping at the first
`ConfigurationError`. -/
def addHosts (registry : List String) : List String →
    Except ConfigurationError (List String)
  | [] => .ok registry
  | u :: rest =>
    match addHost registry u with
    | .error e => .error e
    | .ok r2 => addHosts r2 rest

/-- The `Kapacitor` constructor's effect on the pool, with the absent
`src/lib/pool.ts` modelled from the spec: resolve the host entries
(embedded from src/src/lib/kapacitor.test.ts; `none` is a thrown
`TypeError`), then `new Pool(resolved.pool)` validates the pool options
(§6), then each host URL is registered through `addHost`, which rejects
duplicates (§4.1). `poolOpts` is the structured options value the Pool
receives. The result is the Host Registry's base URLs in registration
order, or the `ConfigurationError` construction fails with. -/
def kapacitorRegistry (options : ConfigInput) (poolOpts : PoolOptions) :
    Option (Except ConfigurationError (List String)) :=
  match resolveClusterHosts options with
  | none => none
  | some hs =>
    some
      (match validatePoolOptions poolOpts with
      | .error e => .error e
      | .ok _ => addHosts [] (hs.map hostUrl))

/-- The host the default (no-options) construction resolves. -/
def defaultResolvedHost : JsObj :=
  [("host", .str "127.0.0.1"), ("port", .number "9092"),
   ("protocol", .str "http"), ("options", .undef)]

/-- The mutation `Kapacitor.updateTask` performs on its argument and the
request it then issues (src/src/lib/kapacitor.test.ts, lines 389-401):
escape a truthy `script` with `escape.quoted`, read `task.id`, `delete
task.id`, then `PATCH 'tasks/' + taskId` with `JSON.stringify(task)`.
The first component of the result is the argument object's final state
(the caller-supplied object is mutated in place); the third is the object
handed to `JSON.stringify` — the same mutated object. `none` models the
`TypeError` `escape.quoted` throws on a truthy non-string `script`. -/
def updateTask (task : JsObj) : Option (JsObj × String × JsObj) :=
  let scriptStep : Option JsObj :=
    if (jsGet task "script").truthy then
      match jsGet task "script" with
      | .str s => some (jsSet task "script" (.str (escapeQuoted s)))
      | _ => none
    else some task
  match scriptStep with
  | none => none
  | some t1 =>
    let taskId := jsGet t1 "id"
    let t2 := jsDelete t1 "id"
    some (t2, "tasks/" ++ jsTemplateStr taskId, t2)

/-- Embeds `Kapacitor.updateTemplate` (src/src/lib/kapacitor.test.ts, lines
421-433): same shape as `updateTask` with the `templates/` path. -/
def updateTemplate (template : JsObj) : Option (JsObj × String × JsObj) :=
  let scriptStep : Option JsObj :=
    if (jsGet template "script").truthy then
      match jsGet template "script" with
      | .str s => some (jsSet template "script" (.str (escapeQuoted s)))
      | _ => none
    else some template
  match scriptStep with
  | none => none
  | some t1 =>
    let templateId := jsGet t1 "id"
    let t2 := jsDelete t1 "id"
    some (t2, "templates/" ++ jsTemplateStr templateId, t2)

/-! ### The connection pool (`src/lib/pool.ts` is not among the sources;
these definitions are modelled from the specification) -/

/-- Modelled from the spec: the Backoff Policy (§4.2), whose
implementation (`src/lib/pool.ts` / its backoff module) is not among the
sources — `backoff(failureCount) = min(backoffInitial * 2^(failureCount-1),
backoffMax)`, a pure function of the consecutive-failure count. -/
def backoff (backoffInitial backoffMax failureCount : Nat) : Nat :=
  min (backoffInitial * 2 ^ (failureCount - 1)) backoffMax

/-- Modelled from the spec: how `PoolOptions.maxRetries` resolves when the
caller does not specify it (§3: default is the number of configured hosts
minus one); `src/lib/pool.ts` is not among the sources. -/
def resolveMaxRetries (specified : Option Nat) (hostCount : Nat) : Nat :=
  specified.getD (hostCount - 1)

/-- The three classification bands of a transport-level HTTP response. -/
inductive StatusClass where
  | success : StatusClass
  | rejected : StatusClass
  | serverError : StatusClass
  deriving DecidableEq

/-- Modelled from the spec: outcome classification of the Request
Dispatcher (§4.4 step 4); `src/lib/pool.ts` is not among the sources.
Status ≥ 500 is a host-health failure, [300, 499] is a request-shape
rejection, [200, 299] is a success (statuses below 200 do not occur in the
spec and fall into the success band). -/
def classifyStatus (s : Nat) : StatusClass :=
  if 500 ≤ s then .serverError
  else if 300 ≤ s then .rejected
  else .success

/-- What the transport returns when a given host is tried: a connection
error / timeout, or a response with a status code and a body. -/
inductive Outcome where
  | transportError : Outcome
  | response : Nat → String → Outcome

/-- A Host Registry entry together with the transport outcome the host
would produce for the logical request under consideration. -/
structure SpecHost where
  url : String
  healthy : Bool
  failCount : Nat
  outcome : Outcome

/-- Modelled from the spec: `markDown` (§4.1) — unhealthy, failure counter
incremented. -/
def markDown (h : SpecHost) : SpecHost :=
  { h with healthy := false, failCount := h.failCount + 1 }

/-- Modelled from the spec: `markUp` (§4.1) — healthy, failure counter
reset. -/
def markUp (h : SpecHost) : SpecHost :=
  { h with healthy := true, failCount := 0 }

/-- The one outcome a `dispatchJSON` call surfaces (§7 taxonomy).
`parseFailure` covers a 2xx body that is not valid JSON. -/
inductive DispatchOutcome where
  | noAvailableHosts : DispatchOutcome
  | allHostsFailed : DispatchOutcome
  | serviceUnavailable : String → DispatchOutcome
  | requestRejected : Nat → String → DispatchOutcome
  | parseFailure : String → DispatchOutcome
  | ok : JsVal → DispatchOutcome

/-- The observable trace of one dispatch: the surfaced result, the number
of transport calls made, and the final health states of the hosts that
were offered to the retry loop. -/
structure DispatchTrace where
  result : DispatchOutcome
  calls : Nat
  hosts : List SpecHost

/-- Modelled from the spec: the Request Dispatcher's retry loop (§4.4
steps 2-5); `src/lib/pool.ts` is not among the sources. Hosts are tried in
order; a transport failure or a 5xx response marks the host down and
consumes one retry budget unit; a [300, 499] response fails immediately
with `requestRejected` and no further transport call; a 2xx response marks
the host up and returns the JSON-parsed body. Running out of candidates
surfaces `allHostsFailed` (§7). -/
def dispatchLoop : List SpecHost → Nat → DispatchTrace
  | [], _ => ⟨.allHostsFailed, 0, []⟩
  | h :: rest, budget =>
    match h.outcome with
    | .transportError =>
      if budget = 0 then ⟨.allHostsFailed, 1, markDown h :: rest⟩
      else
        let t := dispatchLoop rest (budget - 1)
        ⟨t.result, t.calls + 1, markDown h :: t.hosts⟩
    | .response s b =>
      match classifyStatus s with
      | .serverError =>
        if budget = 0 then ⟨.serviceUnavailable b, 1, markDown h :: rest⟩
        else
          let t := dispatchLoop rest (budget - 1)
          ⟨t.result, t.calls + 1, markDown h :: t.hosts⟩
      | .rejected => ⟨.requestRejected s b, 1, h :: rest⟩
      | .success =>
        match jsonParse b with
        | some v => ⟨.ok v, 1, markUp h :: rest⟩
        | none => ⟨.parseFailure b, 1, h :: rest⟩

/-- Modelled from the spec: `candidates()` (§4.1) — the eligible entries.
Cool-down re-eligibility is a wall-clock notion and is not modelled; an
eligible host is represented by `healthy = true`. -/
def eligibleHosts (hosts : List SpecHost) : List SpecHost :=
  hosts.filter (fun h => h.healthy)

/-- Modelled from the spec: `dispatchJSON` entry (§4.4 step 1) — an empty
candidate set fails immediately with `noAvailableHosts` and no transport
call; otherwise the retry loop runs over the eligible hosts with the
`maxRetries` budget. -/
def dispatch (hosts : List SpecHost) (maxRetries : Nat) : DispatchTrace :=
  match eligibleHosts hosts with
  | [] => ⟨.noAvailableHosts, 0, hosts⟩
  | h :: rest => dispatchLoop (h :: rest) maxRetries

/-- The CRUD layer's use of the pool: `pool.json(...).then(assertNoErrors)`
(e.g. `Kapacitor.createTemplate`) — when the dispatch returns a parsed
object document, `assertNoErrors` (from `src/lib/results.ts`) is applied
to it; `none` records that the dispatch surfaced something other than an
object document. -/
def dispatchChecked (hosts : List SpecHost) (maxRetries : Nat) :
    DispatchTrace × Option (Except ResultError JsObj) :=
  let t := dispatch hosts maxRetries
  match t.result with
  | .ok (.obj doc) => (t, some (assertNoErrors doc))
  | _ => (t, none)

/-- What a probed host does: answer (with a round-trip time and a version
string), actively refuse after some time, or never complete. -/
inductive ProbeBehavior where
  | answers : Nat → String → ProbeBehavior
  | refuses : Nat → ProbeBehavior
  | silent : ProbeBehavior

/-- A registered host as the Health Prober sees it. -/
structure ProbeHost where
  url : String
  healthy : Bool
  behavior : ProbeBehavior

/-- One entry of the `ping` result (§3 `PingResult`). -/
structure PingResult where
  host : String
  online : Bool
  rtt : Nat
  version : Option String

/-- Modelled from the spec: one health probe (§4.3); `src/lib/pool.ts` is
not among the sources. A probe that completes successfully within the
timeout is `online = true` with its measured round-trip time and version;
a failing probe is `online = false`; a probe that does not complete within
the timeout is recorded `online = false`, `rtt = timeout`. The host's
current health flag is not consulted. -/
def probeOne (timeout : Nat) (h : ProbeHost) : PingResult :=
  match h.behavior with
  | .answers rtt v =>
    if rtt ≤ timeout then ⟨h.url, true, rtt, some v⟩
    else ⟨h.url, false, timeout, none⟩
  | .refuses rtt =>
    if rtt ≤ timeout then ⟨h.url, false, rtt, none⟩
    else ⟨h.url, false, timeout, none⟩
  | .silent => ⟨h.url, false, timeout, none⟩

/-- Modelled from the spec: `ping(timeout)` (§4.3) — every registered host
is probed, regardless of health state, and the results are returned in
registration order. -/
def ping (timeout : Nat) (hosts : List ProbeHost) : List PingResult :=
  hosts.map (probeOne timeout)

/-- Follows the spec's words (§9, design note on default-merging): the
first value in a list that is not `undefined`. Used only to state the
refinement theorem about `defaults`. -/
def firstDefined : List JsVal → JsVal
  | [] => .undef
  | v :: vs => if v.isUndef then firstDefined vs else v

/-! ### Lemmas about the JS object model -/

theorem JsVal.isUndef_iff (v : JsVal) : v.isUndef = true ↔ v = .undef := by
  cases v <;> simp [JsVal.isUndef]

theorem jsGet_jsSet_self (o : JsObj) (k : String) (v : JsVal) :
    jsGet (jsSet o k v) k = v := by
  induction o with
  | nil => simp [jsSet, jsGet]
  | cons p rest ih =>
    obtain ⟨k2, v2⟩ := p
    by_cases h : k2 = k <;> simp [jsSet, jsGet, h, ih]

theorem jsGet_jsSet_ne (o : JsObj) (k k' : String) (v : JsVal) (h : k' ≠ k) :
    jsGet (jsSet o k v) k' = jsGet o k' := by
  have hne : ¬ k = k' := fun hh => h hh.symm
  induction o with
  | nil => simp [jsSet, jsGet, hne]
  | cons p rest ih =>
    obtain ⟨k2, v2⟩ := p
    by_cases h2 : k2 = k
    · subst h2
      simp [jsSet, jsGet, hne]
    · simp [jsSet, jsGet, h2, ih]

theorem jsGet_eq_undef_of_not_mem (o : JsObj) (k : String) (h : k ∉ objKeys o) :
    jsGet o k = .undef := by
  induction o with
  | nil => rfl
  | cons p rest ih =>
    obtain ⟨k2, v2⟩ := p
    simp only [objKeys, List.map_cons, List.mem_cons] at h
    push_neg at h
    have hne : ¬ k2 = k := fun hh => h.1 hh.symm
    have hrest : k ∉ objKeys rest := by simpa [objKeys] using h.2
    simp [jsGet, hne, ih hrest]

theorem not_mem_objKeys_jsDelete (o : JsObj) (k : String) :
    k ∉ objKeys (jsDelete o k) := by
  induction o with
  | nil => simp [jsDelete, objKeys]
  | cons p rest ih =>
    obtain ⟨k2, v2⟩ := p
    by_cases h : k2 = k
    · simpa [jsDelete, h] using ih
    · have hne : ¬ k = k2 := fun hh => h hh.symm
      simpa [jsDelete, objKeys, h, hne] using ih

theorem jsGet_jsDelete_ne (o : JsObj) (k k' : String) (h : k' ≠ k) :
    jsGet (jsDelete o k) k' = jsGet o k' := by
  induction o with
  | nil => rfl
  | cons p rest ih =>
    obtain ⟨k2, v2⟩ := p
    by_cases h2 : k2 = k
    · subst h2
      have hne : ¬ k2 = k' := fun hh => h hh.symm
      simp [jsDelete, jsGet, hne, ih]
    · simp [jsDelete, jsGet, h2, ih]

theorem assignDefaults_foldl_get (src : JsObj) (ks : List String) (t : JsObj)
    (k : String) :
    jsGet (ks.foldl
        (fun t k2 => if (jsGet t k2).isUndef then jsSet t k2 (jsGet src k2) else t)
        t) k
      = if (jsGet t k).isUndef = true ∧ k ∈ ks then jsGet src k else jsGet t k := by
  induction ks generalizing t with
  | nil => simp
  | cons k2 ks ih =>
    rw [List.foldl_cons]
    by_cases hu2 : (jsGet t k2).isUndef = true
    · rw [if_pos hu2, ih]
      by_cases hk : k = k2
      · subst hk
        rw [jsGet_jsSet_self]
        rw [if_pos (⟨hu2, by simp⟩ : (jsGet t k).isUndef = true ∧ k ∈ k :: ks)]
        split <;> rfl
      · rw [jsGet_jsSet_ne _ _ _ _ hk]
        simp [List.mem_cons, hk]
    · rw [if_neg hu2, ih]
      by_cases hk : k = k2
      · subst hk
        simp [hu2]
      · simp [List.mem_cons, hk]

theorem assignDefaults_get (t src : JsObj) (k : String) :
    jsGet (assignDefaults t src) k
      = if (jsGet t k).isUndef then jsGet src k else jsGet t k := by
  unfold assignDefaults
  rw [assignDefaults_foldl_get]
  by_cases hu : (jsGet t k).isUndef = true
  · rw [if_pos hu]
    by_cases hmem : k ∈ objKeys src
    · rw [if_pos ⟨hu, hmem⟩]
    · rw [if_neg (by simp [hmem]), (JsVal.isUndef_iff _).mp hu,
        jsGet_eq_undef_of_not_mem src k hmem]
  · rw [if_neg hu, if_neg (by simp [hu])]

theorem firstDefined_cons_undef (vs : List JsVal) (v : JsVal)
    (h : v.isUndef = true) : firstDefined (v :: vs) = firstDefined vs := by
  simp [firstDefined, h]

theorem firstDefined_cons_defined (vs : List JsVal) (v : JsVal)
    (h : v.isUndef = false) : firstDefined (v :: vs) = v := by
  simp [firstDefined, h]

theorem defaults_get (target : JsObj) (srcs : List JsObj) (k : String) :
    jsGet (defaults target srcs) k
      = firstDefined (jsGet target k :: srcs.map (fun s => jsGet s k)) := by
  induction srcs generalizing target with
  | nil =>
    by_cases hu : (jsGet target k).isUndef = true
    · have h2 := (JsVal.isUndef_iff _).mp hu
      simp [defaults, firstDefined, hu, h2]
    · simp [defaults, firstDefined, hu]
  | cons s ss ih =>
    have step : defaults target (s :: ss) = defaults (assignDefaults target s) ss := rfl
    rw [step, ih]
    by_cases hu : (jsGet target k).isUndef = true
    · have ha : jsGet (assignDefaults target s) k = jsGet s k := by
        rw [assignDefaults_get]; simp [hu]
      rw [ha, List.map_cons, firstDefined_cons_undef _ _ hu]
    · have hb : (jsGet target k).isUndef = false := by simpa using hu
      have ha : jsGet (assignDefaults target s) k = jsGet target k := by
        rw [assignDefaults_get]; simp [hb]
      rw [ha, List.map_cons, firstDefined_cons_defined _ _ hb,
        firstDefined_cons_defined _ _ hb]

/-! ### Lemmas about the dispatcher model -/

theorem dispatchLoop_calls_le (hs : List SpecHost) (budget : Nat) :
    (dispatchLoop hs budget).calls ≤ budget + 1 := by
  induction hs generalizing budget with
  | nil => simp [dispatchLoop]
  | cons h rest ih =>
    cases hout : h.outcome with
    | transportError =>
      by_cases hb : budget = 0
      · simp [dispatchLoop, hout, hb]
      · have := ih (budget - 1)
        simp only [dispatchLoop, hout, if_neg hb]
        omega
    | response s b =>
      cases hc : classifyStatus s with
      | serverError =>
        by_cases hb : budget = 0
        · simp [dispatchLoop, hout, hc, hb]
        · have := ih (budget - 1)
          simp only [dispatchLoop, hout, hc, if_neg hb]
          omega
      | rejected => simp [dispatchLoop, hout, hc]
      | success =>
        cases hp : jsonParse b <;> simp [dispatchLoop, hout, hc, hp]

/-! ### Claim theorems -/

/-- Claim C6: `backoff` is a pure, deterministic function of the
consecutive-failure count: for `failureCount ≥ 1` it equals
`min(backoffInitial * 2^(failureCount - 1), backoffMax)`, is monotonically
non-decreasing in the failure count, and never exceeds `backoffMax`. -/
theorem backoff_formula_monotone_capped
    (init mx fc1 fc2 : Nat) (h1 : 1 ≤ fc1) (h12 : fc1 ≤ fc2) :
    backoff init mx fc1 = min (init * 2 ^ (fc1 - 1)) mx
      ∧ backoff init mx fc1 ≤ backoff init mx fc2
      ∧ backoff init mx fc1 ≤ mx := by
  refine ⟨rfl, ?_, min_le_right _ _⟩
  unfold backoff
  exact min_le_min
    (Nat.mul_le_mul_left _ (Nat.pow_le_pow_right (by norm_num) (by omega)))
    (le_refl mx)

/-- Witness for `backoff_formula_monotone_capped`: initial 300, cap 10000,
failure counts 1 and 3. -/
theorem backoff_formula_monotone_capped_witness :
    backoff 300 10000 1 = min (300 * 2 ^ (1 - 1)) 10000
      ∧ backoff 300 10000 1 ≤ backoff 300 10000 3
      ∧ backoff 300 10000 1 ≤ 10000 :=
  backoff_formula_monotone_capped 300 10000 1 3 (by decide) (by decide)

/-- Claim C2: outcome classification partitions statuses exactly at 500:
every status in [300, 499] is classified `rejected` and surfaces
`requestRejected`; every status ≥ 500 is classified `serverError`, and
once the retry budget is exhausted the surfaced error is
`serviceUnavailable` carrying the response body; no status is in both
classes. -/
theorem status_partition_at_500 (s : Nat) (b : String) (h : SpecHost)
    (rest : List SpecHost) (budget : Nat) :
    (300 ≤ s → s ≤ 499 → classifyStatus s = .rejected)
      ∧ (500 ≤ s → classifyStatus s = .serverError)
      ∧ ¬ (classifyStatus s = .rejected ∧ classifyStatus s = .serverError)
      ∧ (300 ≤ s → s ≤ 499 → h.outcome = .response s b →
          (dispatchLoop (h :: rest) budget).result = .requestRejected s b)
      ∧ (500 ≤ s → h.outcome = .response s b →
          (dispatchLoop (h :: rest) 0).result = .serviceUnavailable b) := by
  have hr : 300 ≤ s → s ≤ 499 → classifyStatus s = .rejected := by
    intro h300 h499
    unfold classifyStatus
    rw [if_neg (by omega), if_pos h300]
  have h5 : 500 ≤ s → classifyStatus s = .serverError := by
    intro h500
    unfold classifyStatus
    rw [if_pos h500]
  refine ⟨hr, h5, ?_, ?_, ?_⟩
  · rintro ⟨hrj, hse⟩
    rw [hrj] at hse
    exact absurd hse (by decide)
  · intro h300 h499 hout
    simp [dispatchLoop, hout, hr h300 h499]
  · intro h500 hout
    simp [dispatchLoop, hout, h5 h500]

/-- Witness for `status_partition_at_500`: a 503 with no budget left
surfaces `serviceUnavailable` with the body; 404 classifies `rejected`. -/
theorem status_partition_at_500_witness :
    (dispatchLoop [⟨"http://h1:9092", true, 0, .response 503 "overloaded"⟩] 0).result
        = .serviceUnavailable "overloaded"
      ∧ classifyStatus 404 = .rejected :=
  ⟨(status_partition_at_500 503 "overloaded"
      ⟨"http://h1:9092", true, 0, .response 503 "overloaded"⟩ [] 0).2.2.2.2
      (by decide) rfl,
   (status_partition_at_500 404 "x"
      ⟨"http://h1:9092", true, 0, .transportError⟩ [] 0).1 (by decide) (by decide)⟩

/-- Claim C3: a dispatched request answered by a host with a 4xx status is
never retried on another host: exactly one transport call is made, for
every retry budget and every number of other eligible hosts. -/
theorem rejected_single_transport_call (hosts : List SpecHost) (h : SpecHost)
    (rest : List SpecHost) (budget s : Nat) (b : String)
    (helig : eligibleHosts hosts = h :: rest)
    (hout : h.outcome = .response s b) (h4 : 400 ≤ s) (h4b : s ≤ 499) :
    (dispatch hosts budget).calls = 1
      ∧ (dispatch hosts budget).result = .requestRejected s b := by
  have hc : classifyStatus s = .rejected := by
    unfold classifyStatus
    rw [if_neg (by omega), if_pos (by omega)]
  unfold dispatch
  rw [helig]
  exact ⟨by simp [dispatchLoop, hout, hc], by simp [dispatchLoop, hout, hc]⟩

/-- Witness for `rejected_single_transport_call`: 404 from the first of
two healthy hosts with a generous budget still makes exactly one call. -/
theorem rejected_single_transport_call_witness :
    (dispatch [⟨"http://h1:9092", true, 0, .response 404 "nope"⟩,
        ⟨"http://h2:9092", true, 0, .response 200 "\x7b\x7d"⟩] 5).calls = 1
      ∧ (dispatch [⟨"http://h1:9092", true, 0, .response 404 "nope"⟩,
          ⟨"http://h2:9092", true, 0, .response 200 "\x7b\x7d"⟩] 5).result
          = .requestRejected 404 "nope" :=
  rejected_single_transport_call _ _ _ 5 404 "nope" rfl rfl (by decide) (by decide)

/-- Claim C9: an unspecified `maxRetries` defaults to the number of
configured hosts minus one, and a dispatch with budget `b` makes at most
`b + 1` transport calls — so a pool of N ≥ 1 hosts makes at most N
attempts per call by default. -/
theorem default_maxRetries_attempt_bound (hosts : List SpecHost) :
    resolveMaxRetries none hosts.length = hosts.length - 1
      ∧ (∀ budget : Nat, (dispatch hosts budget).calls ≤ budget + 1)
      ∧ (1 ≤ hosts.length →
          (dispatch hosts (resolveMaxRetries none hosts.length)).calls
            ≤ hosts.length) := by
  have hd : ∀ budget : Nat, (dispatch hosts budget).calls ≤ budget + 1 := by
    intro budget
    unfold dispatch
    cases he : eligibleHosts hosts with
    | nil => simp
    | cons h rest => exact dispatchLoop_calls_le _ _
  refine ⟨rfl, hd, ?_⟩
  intro hlen
  have hb := hd (resolveMaxRetries none hosts.length)
  have hr : resolveMaxRetries none hosts.length = hosts.length - 1 := rfl
  omega

/-- Witness for `default_maxRetries_attempt_bound`: two failing hosts,
default budget, at most two calls. -/
theorem default_maxRetries_attempt_bound_witness :
    (dispatch [⟨"http://h1:9092", true, 0, .transportError⟩,
        ⟨"http://h2:9092", true, 0, .transportError⟩]
        (resolveMaxRetries none 2)).calls ≤ 2 := by
  have hw := (default_maxRetries_attempt_bound
    [⟨"http://h1:9092", true, 0, .transportError⟩,
     ⟨"http://h2:9092", true, 0, .transportError⟩]).2.2 (by decide)
  simpa using hw

/-- Claim C5: `ping(timeout)` over N registered hosts returns exactly N
`PingResult` entries in registration order, one per registered host
irrespective of its current health flag; a probe that does not complete
within the timeout (a silent host, or one answering later than the
timeout) is recorded `online = false`, `rtt = timeout`. -/
theorem ping_one_result_per_host (timeout : Nat) (hosts : List ProbeHost) :
    (ping timeout hosts).length = hosts.length
      ∧ (∀ i : Nat, (ping timeout hosts)[i]? = (hosts[i]?).map (probeOne timeout))
      ∧ (∀ h : ProbeHost, ∀ flag : Bool,
          probeOne timeout { h with healthy := flag } = probeOne timeout h)
      ∧ (∀ h : ProbeHost, h.behavior = .silent →
          probeOne timeout h = ⟨h.url, false, timeout, none⟩)
      ∧ (∀ h : ProbeHost, ∀ rtt : Nat, ∀ v : String,
          h.behavior = .answers rtt v → timeout < rtt →
          probeOne timeout h = ⟨h.url, false, timeout, none⟩) := by
  refine ⟨by simp [ping], ?_, ?_, ?_, ?_⟩
  · intro i
    simp [ping]
  · intro h flag
    obtain ⟨url, healthy, behavior⟩ := h
    cases behavior <;> simp [probeOne]
  · intro h hb
    simp [probeOne, hb]
  · intro h rtt v hb hlt
    simp [probeOne, hb, Nat.not_le.mpr hlt]

/-- Witness for `ping_one_result_per_host`: two hosts, one (previously
marked unhealthy) answering in 50 ms with version "1.5", one silent, with
a 3000 ms timeout. -/
theorem ping_one_result_per_host_witness :
    (ping 3000 [⟨"http://h1:9092", false, .answers 50 "1.5"⟩,
        ⟨"http://h2:9092", true, .silent⟩]).length = 2
      ∧ probeOne 3000 (⟨"http://h2:9092", true, .silent⟩ : ProbeHost)
          = ⟨"http://h2:9092", false, 3000, none⟩ := by
  have hw := ping_one_result_per_host 3000
    [⟨"http://h1:9092", false, .answers 50 "1.5"⟩, ⟨"http://h2:9092", true, .silent⟩]
  exact ⟨hw.1, hw.2.2.2.1 ⟨"http://h2:9092", true, .silent⟩ rfl⟩

/-- Claim C8: the configuration default-merging function assigns a source
value only to keys resolving to `undefined` in the target: the merged
value at any key is the first defined value among the target's and then
each source's value at that key, taken left to right — so a key defined in
the target (including `null`, `0`, `false`, `""`) keeps exactly its
original value, and an earlier source's defined assignment is never
overwritten by a later source. -/
theorem defaults_only_undefined_overwritten (target : JsObj) (srcs : List JsObj)
    (k : String) :
    jsGet (defaults target srcs) k
        = firstDefined (jsGet target k :: srcs.map (fun s => jsGet s k))
      ∧ ((jsGet target k).isUndef = false →
          jsGet (defaults target srcs) k = jsGet target k) := by
  refine ⟨defaults_get target srcs k, fun hdef => ?_⟩
  rw [defaults_get target srcs k, firstDefined_cons_defined _ _ hdef]

/-- Witness for `defaults_only_undefined_overwritten`: a target whose
`host` is defined keeps it when merged with `defaultHost`, and its
undefined `port` is filled from the source. -/
theorem defaults_only_undefined_overwritten_witness :
    jsGet (defaults [("host", .str "example.com"), ("port", .undef)] [defaultHost])
        "host" = .str "example.com"
      ∧ jsGet (defaults [("host", .str "example.com"), ("port", .undef)] [defaultHost])
        "port" = .number "9092" := by
  constructor
  · exact (defaults_only_undefined_overwritten
      [("host", .str "example.com"), ("port", .undef)] [defaultHost] "host").2 rfl
  · have hw := (defaults_only_undefined_overwritten
      [("host", .str "example.com"), ("port", .undef)] [defaultHost] "port").1
    rw [hw]
    rfl

/-! ### Lemmas for the constructor model -/

theorem jsTemplateStr_str (s : String) : jsTemplateStr (.str s) = s := by
  simp [jsTemplateStr]

theorem jsTemplateStr_number (lit : String) : jsTemplateStr (.number lit) = lit := by
  simp [jsTemplateStr]

theorem resolveHostList_objs (hs : List JsObj) :
    ∃ l : List JsObj, resolveHostList (hs.map JsVal.obj) = some l
      ∧ l.length = hs.length := by
  induction hs with
  | nil => exact ⟨[], rfl, rfl⟩
  | cons o rest ih =>
    obtain ⟨l, hl, hlen⟩ := ih
    refine ⟨defaults
        [("host", jsGet o "host"), ("port", jsGet o "port"),
         ("protocol", jsGet o "protocol"), ("options", jsGet o "options")]
        [defaultHost] :: l, ?_, by simp [hlen]⟩
    simp [resolveHostList, resolveHostEntry, jsPropAccess, hl]

theorem addHosts_ok (us : List String) (registry : List String)
    (hdisj : ∀ u ∈ us, u ∉ registry) (hnd : us.Nodup) :
    addHosts registry us = .ok (registry ++ us) := by
  induction us generalizing registry with
  | nil => simp [addHosts]
  | cons u rest ih =>
    obtain ⟨hnotin, hnd2⟩ := List.nodup_cons.mp hnd
    have hu : u ∉ registry := hdisj u (by simp)
    have hadd : addHost registry u = .ok (registry ++ [u]) := by
      simp [addHost, hu]
    have hdisj2 : ∀ v ∈ rest, v ∉ registry ++ [u] := by
      intro v hv
      simp only [List.mem_append, List.mem_singleton]
      rintro (hr | he)
      · exact hdisj v (by simp [hv]) hr
      · exact hnotin (he ▸ hv)
    rw [addHosts, hadd]
    show addHosts (registry ++ [u]) rest = Except.ok (registry ++ u :: rest)
    rw [ih (registry ++ [u]) hdisj2 hnd2]
    simp

/-- Claim C4 counterexample: constructing from a cluster configuration with
an empty `hosts` list and well-formed (all-unspecified) pool options
succeeds — the construction returns a registry, not a
`ConfigurationError` — and that Host Registry has zero entries,
contradicting both the claimed non-emptiness invariant and the claimed
construction failure on a zero-host configuration. -/
theorem empty_cluster_construction_counterexample :
    kapacitorRegistry (.config [("hosts", .arr [])])
        ⟨none, none, none, none, none⟩ = some (.ok []) := rfl

/-- Claim C4 amended: construction from malformed pool options (e.g. a
specified non-positive `requestTimeout`) fails with a
`ConfigurationError`, as does registering a duplicate host base URL; but a
configuration yielding zero hosts with well-formed options is accepted:
construction succeeds with an empty Host Registry, so the registry is not
always non-empty after construction. With well-formed options the registry
holds the configured hosts in registration order — one entry for the
default and single-host forms, and one per entry of a cluster's `hosts`
array whose resolved URLs are distinct. -/
theorem construction_registry_size :
    kapacitorRegistry .absent ⟨none, none, none, none, none⟩
        = some (.ok ["http://127.0.0.1:9092"])
      ∧ (∀ p : PoolOptions, ∀ t : Int, ¬ p.maxRetries.getD 0 < 0 →
          p.requestTimeout = some t → t ≤ 0 →
          validatePoolOptions p = .error .malformedOptions)
      ∧ (∀ opts : ConfigInput, ∀ p : PoolOptions, ∀ e : ConfigurationError,
          ∀ l : List JsObj, validatePoolOptions p = .error e →
          resolveClusterHosts opts = some l →
          kapacitorRegistry opts p = some (.error e))
      ∧ (∀ registry : List String, ∀ u : String, u ∈ registry →
          addHost registry u = .error (.duplicateHost u))
      ∧ (∀ us : List String, us.Nodup → addHosts [] us = .ok us)
      ∧ (∀ o : JsObj, ∀ p : PoolOptions, hasOwn o "hosts" = false →
          validatePoolOptions p = .ok () →
          ∃ u : String, kapacitorRegistry (.config o) p = some (.ok [u]))
      ∧ (∀ o : JsObj, ∀ hs : List JsObj, ∀ p : PoolOptions, ∀ l : List JsObj,
          jsGet o "hosts" = .arr (hs.map JsVal.obj) →
          validatePoolOptions p = .ok () →
          resolveClusterHosts (.config o) = some l →
          (l.map hostUrl).Nodup →
          kapacitorRegistry (.config o) p = some (.ok (l.map hostUrl))
            ∧ l.length = hs.length) := by
  refine ⟨?_, ?_, ?_, ?_, ?_, ?_, ?_⟩
  · have hR : resolveClusterHosts .absent = some [defaultResolvedHost] := rfl
    have hu : hostUrl defaultResolvedHost = "http://127.0.0.1:9092" := by
      simp [hostUrl, defaultResolvedHost, jsGet, jsTemplateStr]
    simp [kapacitorRegistry, hR, hu, validatePoolOptions, addHosts, addHost]
  · intro p t hmr hrt ht
    simp [validatePoolOptions, hmr, hrt, ht]
  · intro opts p e l herr hres
    simp [kapacitorRegistry, hres, herr]
  · intro registry u hu
    simp [addHost, hu]
  · intro us hnd
    simpa using addHosts_ok us [] (by simp) hnd
  · intro o p hno hok
    have hwrap : resolveClusterHosts (.config o) = resolveHostList [.obj o] := by
      simp [resolveClusterHosts, hno, jsGet]
    have hone : resolveHostList [.obj o] = some [defaults
        [("host", jsGet o "host"), ("port", jsGet o "port"),
         ("protocol", jsGet o "protocol"), ("options", jsGet o "options")]
        [defaultHost]] := rfl
    refine ⟨hostUrl (defaults
        [("host", jsGet o "host"), ("port", jsGet o "port"),
         ("protocol", jsGet o "protocol"), ("options", jsGet o "options")]
        [defaultHost]), ?_⟩
    simp [kapacitorRegistry, hwrap, hone, hok, addHosts, addHost]
  · intro o hs p l hhosts hok hres hnd
    have hmem : "hosts" ∈ objKeys o := by
      by_contra hno
      rw [jsGet_eq_undef_of_not_mem o _ hno] at hhosts
      simp at hhosts
    have hown : hasOwn o "hosts" = true := List.elem_eq_true_of_mem hmem
    have h1 : resolveClusterHosts (.config o) = resolveHostList (hs.map JsVal.obj) := by
      simp [resolveClusterHosts, hown, hhosts]
    obtain ⟨l0, hl0, hlen⟩ := resolveHostList_objs hs
    have heq : resolveHostList (hs.map JsVal.obj) = some l := by
      rw [← h1]
      exact hres
    have hl : l0 = l := by
      rw [hl0] at heq
      exact Option.some.inj heq
    constructor
    · simp [kapacitorRegistry, hres, hok, addHosts_ok (l.map hostUrl) [] (by simp) hnd]
    · rw [← hl]
      exact hlen

/-- Witness for `construction_registry_size`: a specified `-5`
`requestTimeout` makes construction fail with a `ConfigurationError`
even though a host is configured, and re-adding a registered base URL is
rejected as a duplicate. -/
theorem construction_registry_size_witness :
    kapacitorRegistry (.config [("host", .str "kapa1.example.com")])
        ⟨none, some (-5), none, none, none⟩
        = some (.error .malformedOptions)
      ∧ addHost ["http://h1:9092"] "http://h1:9092"
          = .error (.duplicateHost "http://h1:9092") := by
  constructor
  · exact construction_registry_size.2.2.1
      (.config [("host", .str "kapa1.example.com")])
      ⟨none, some (-5), none, none, none⟩ .malformedOptions
      [defaults
        [("host", JsVal.str "kapa1.example.com"), ("port", JsVal.undef),
         ("protocol", JsVal.undef), ("options", JsVal.undef)]
        [defaultHost]]
      (construction_registry_size.2.1 ⟨none, some (-5), none, none, none⟩ (-5)
        (by decide) rfl (by decide))
      rfl
  · exact construction_registry_size.2.2.2.1 ["http://h1:9092"] "http://h1:9092"
      (by simp)

/-- Claim C7 counterexample: for the response body `\x7b"ok":1\x7d` the
JSON parse succeeds and yields an object with no `error` field, so the
`RequestError` constructor stores `undefined` as the message — not the raw
response body, as the claim requires for this case. -/
theorem requestError_undefined_message_counterexample :
    jsonParse "\x7b\"ok\":1\x7d" = some (.obj [("ok", .number "1")])
      ∧ (RequestError.make 404 "Not Found" "\x7b\"ok\":1\x7d").message = .undef
      ∧ (RequestError.make 404 "Not Found" "\x7b\"ok\":1\x7d").message
          ≠ .str "\x7b\"ok\":1\x7d" := by
  refine ⟨rfl, rfl, ?_⟩
  intro hcontra
  rw [show (RequestError.make 404 "Not Found" "\x7b\"ok\":1\x7d").message
      = JsVal.undef from rfl] at hcontra
  simp at hcontra

/-- Claim C7 amended: a `RequestError` carries the numeric status code and
status message of the response; its message equals the `error` property of
the JSON-parsed body — which is `undefined` when the parse succeeds with
an object lacking that property — while the raw body is kept only when
parsing throws, or when the parsed value is `null` (whose property access
throws and is caught). -/
theorem requestError_fields (sc : Nat) (sm body : String) :
    (RequestError.make sc sm body).statusCode = sc
      ∧ (RequestError.make sc sm body).statusMessage = sm
      ∧ (jsonParse body = none → (RequestError.make sc sm body).message = .str body)
      ∧ (jsonParse body = some .null →
          (RequestError.make sc sm body).message = .str body)
      ∧ (∀ fs : JsObj, jsonParse body = some (.obj fs) →
          (RequestError.make sc sm body).message = jsGet fs "error") := by
  refine ⟨rfl, rfl, ?_, ?_, ?_⟩
  · intro hp
    simp [RequestError.make, hp]
  · intro hp
    simp [RequestError.make, hp, jsPropAccess]
  · intro fs hp
    simp [RequestError.make, hp, jsPropAccess]

/-- Witness for `requestError_fields`: an unparseable body is kept raw;
a body with an `error` field yields that field as the message. -/
theorem requestError_fields_witness :
    (RequestError.make 400 "Bad Request" "nope").message = .str "nope"
      ∧ (RequestError.make 400 "Bad Request"
          "\x7b\"error\":\"bad request\"\x7d").message = .str "bad request" := by
  constructor
  · exact (requestError_fields 400 "Bad Request" "nope").2.2.1 rfl
  · have hw := (requestError_fields 400 "Bad Request"
      "\x7b\"error\":\"bad request\"\x7d").2.2.2.2 [("error", .str "bad request")] rfl
    rw [hw]
    rfl

/-- Claim C1: a dispatched request answered with a 2xx status has its body
JSON-parsed and the host marked up (the host stays healthy even when the
operation fails logically); the CRUD layer then applies `assertNoErrors`
to the parsed document: a non-empty string `error` field makes the call
fail with a `ResultError` built from exactly that message (its `message`
property prefixes it with "Error from Kapacitor: "), and a document whose
`error` field is absent or empty is returned unchanged. -/
theorem dispatch_success_semantic_error (hosts : List SpecHost) (budget s : Nat)
    (h : SpecHost) (rest : List SpecHost) (body : String) (doc : JsObj)
    (helig : eligibleHosts hosts = h :: rest)
    (hout : h.outcome = .response s body)
    (h200 : 200 ≤ s) (h299 : s ≤ 299)
    (hparse : jsonParse body = some (.obj doc)) :
    (dispatch hosts budget).result = .ok (.obj doc)
      ∧ (dispatch hosts budget).hosts = markUp h :: rest
      ∧ (markUp h).healthy = true
      ∧ (dispatchChecked hosts budget).2 = some (assertNoErrors doc)
      ∧ (∀ e : String, jsGet doc "error" = .str e → e ≠ "" →
          assertNoErrors doc = .error (ResultError.make e))
      ∧ (∀ e : String, (ResultError.make e).message = "Error from Kapacitor: " ++ e)
      ∧ (jsGet doc "error" = .undef ∨ jsGet doc "error" = .str "" →
          assertNoErrors doc = .ok doc) := by
  have hc : classifyStatus s = .success := by
    unfold classifyStatus
    rw [if_neg (by omega), if_neg (by omega)]
  have hres : dispatch hosts budget = ⟨.ok (.obj doc), 1, markUp h :: rest⟩ := by
    unfold dispatch
    rw [helig]
    simp [dispatchLoop, hout, hc, hparse]
  refine ⟨by rw [hres], by rw [hres], rfl, ?_, ?_, fun e => rfl, ?_⟩
  · unfold dispatchChecked
    rw [hres]
  · intro e he hne
    unfold assertNoErrors
    rw [he]
    rw [if_pos (by simp [JsVal.truthy, hne])]
    rw [jsTemplateStr_str]
  · intro hcase
    unfold assertNoErrors
    rcases hcase with hu | he
    · rw [hu, if_neg (by simp [JsVal.truthy])]
    · rw [he, if_neg (by simp [JsVal.truthy])]

/-- Witness for `dispatch_success_semantic_error`: a single-host pool
whose host answers 200 with body `\x7b"error":"no template exists"\x7d` —
the call fails with the `ResultError` built from that message while the
host is marked up. -/
theorem dispatch_success_semantic_error_witness :
    (dispatch [⟨"http://127.0.0.1:9092", true, 0,
        .response 200 "\x7b\"error\":\"no template exists\"\x7d"⟩] 0).result
        = .ok (.obj [("error", .str "no template exists")])
      ∧ (dispatch [⟨"http://127.0.0.1:9092", true, 0,
          .response 200 "\x7b\"error\":\"no template exists\"\x7d"⟩] 0).hosts
          = [markUp ⟨"http://127.0.0.1:9092", true, 0,
              .response 200 "\x7b\"error\":\"no template exists\"\x7d"⟩]
      ∧ assertNoErrors [("error", .str "no template exists")]
          = .error (ResultError.make "no template exists") := by
  have hw := dispatch_success_semantic_error
    [⟨"http://127.0.0.1:9092", true, 0,
        .response 200 "\x7b\"error\":\"no template exists\"\x7d"⟩] 0 200
    ⟨"http://127.0.0.1:9092", true, 0,
        .response 200 "\x7b\"error\":\"no template exists\"\x7d"⟩ []
    "\x7b\"error\":\"no template exists\"\x7d" [("error", .str "no template exists")]
    rfl rfl (by decide) (by decide) rfl
  exact ⟨hw.1, hw.2.1, hw.2.2.2.2.1 "no template exists" rfl (by decide)⟩

/-- Claim C10: `updateTask` and `updateTemplate` mutate the caller-supplied
object — `id` is deleted from it and a (string) `script` is replaced by
its double-quote-escaped form — so the object serialized into the PATCH
body carries no `id` key while every other key is untouched, and the
request path `tasks/<id>` (resp. `templates/<id>`) is built from the
original id. The first component of the result models the argument
object's post-call state, which is the very object serialized as the body. -/
theorem update_strips_id_escapes_script (task : JsObj) (tid s : String)
    (hid : jsGet task "id" = .str tid)
    (hscript : jsGet task "script" = .str s) :
    (∃ t2 : JsObj, updateTask task = some (t2, "tasks/" ++ tid, t2)
        ∧ "id" ∉ objKeys t2
        ∧ jsGet t2 "script" = .str (escapeQuoted s)
        ∧ (∀ k2 : String, k2 ≠ "id" → k2 ≠ "script" → jsGet t2 k2 = jsGet task k2))
      ∧ (∃ t2 : JsObj, updateTemplate task = some (t2, "templates/" ++ tid, t2)
        ∧ "id" ∉ objKeys t2
        ∧ jsGet t2 "script" = .str (escapeQuoted s)
        ∧ (∀ k2 : String, k2 ≠ "id" → k2 ≠ "script" →
            jsGet t2 k2 = jsGet task k2)) := by
  have hids : ("id" : String) ≠ "script" := by decide
  by_cases hempty : s = ""
  · subst hempty
    have htr : (JsVal.str "").truthy = false := by simp [JsVal.truthy]
    have hesc : JsVal.str "" = .str (escapeQuoted "") := rfl
    have hbody : jsGet (jsDelete task "id") "script" = .str (escapeQuoted "") := by
      rw [jsGet_jsDelete_ne task "id" "script" (Ne.symm hids), hscript]
      exact hesc
    have hframe : ∀ k2 : String, k2 ≠ "id" → k2 ≠ "script" →
        jsGet (jsDelete task "id") k2 = jsGet task k2 := fun k2 hk2 _ =>
      jsGet_jsDelete_ne task "id" k2 hk2
    constructor
    · exact ⟨jsDelete task "id",
        by simp [updateTask, hscript, htr, hid, jsTemplateStr_str],
        not_mem_objKeys_jsDelete task "id", hbody, hframe⟩
    · exact ⟨jsDelete task "id",
        by simp [updateTemplate, hscript, htr, hid, jsTemplateStr_str],
        not_mem_objKeys_jsDelete task "id", hbody, hframe⟩
  · have htr : (JsVal.str s).truthy = true := by simp [JsVal.truthy, hempty]
    have hid1 : jsGet (jsSet task "script" (.str (escapeQuoted s))) "id"
        = .str tid := by
      rw [jsGet_jsSet_ne _ _ _ _ hids, hid]
    have hbody : jsGet (jsDelete (jsSet task "script" (.str (escapeQuoted s))) "id")
        "script" = .str (escapeQuoted s) := by
      rw [jsGet_jsDelete_ne _ _ _ (Ne.symm hids), jsGet_jsSet_self]
    have hframe : ∀ k2 : String, k2 ≠ "id" → k2 ≠ "script" →
        jsGet (jsDelete (jsSet task "script" (.str (escapeQuoted s))) "id") k2
          = jsGet task k2 := by
      intro k2 hk2 hk2s
      rw [jsGet_jsDelete_ne _ _ _ hk2, jsGet_jsSet_ne _ _ _ _ hk2s]
    constructor
    · exact ⟨jsDelete (jsSet task "script" (.str (escapeQuoted s))) "id",
        by simp [updateTask, hscript, htr, hid1, jsTemplateStr_str],
        not_mem_objKeys_jsDelete _ "id", hbody, hframe⟩
    · exact ⟨jsDelete (jsSet task "script" (.str (escapeQuoted s))) "id",
        by simp [updateTemplate, hscript, htr, hid1, jsTemplateStr_str],
        not_mem_objKeys_jsDelete _ "id", hbody, hframe⟩

/-- Witness for `update_strips_id_escapes_script`: a task with id `t1` and
a script containing a double quote. -/
theorem update_strips_id_escapes_script_witness :
    ∃ t2 : JsObj,
      updateTask [("id", JsVal.str "t1"), ("script", JsVal.str "a\"b")]
          = some (t2, "tasks/" ++ "t1", t2)
        ∧ "id" ∉ objKeys t2
        ∧ jsGet t2 "script" = .str (escapeQuoted "a\"b") :=
  match (update_strips_id_escapes_script
      [("id", JsVal.str "t1"), ("script", JsVal.str "a\"b")] "t1" "a\"b" rfl rfl).1 with
  | ⟨t2, h1, h2, h3, _⟩ => ⟨t2, h1, h2, h3⟩

end Kap
